import Mathlib

/-!
Verification of the in-memory fake GitHub GraphQL backend
(`ghstack/github_fake.py`): a shallow embedding of the store, the
resolvers and the two mutations, together with proofs of the spec's
claims about them.

Python dicts are modelled as association lists (which preserve insertion
order, as Python dicts do); Python exceptions are modelled with `Except`,
and every mutating operation returns the state as mutated up to the point
where the exception was raised.  `str(n)` on a non-negative int is
modelled by `pyStr`.
-/

namespace GithubFake

/-! ### Decimal rendering of naturals, modelling Python str(int) -/

/-- Big-endian decimal digits of `n`, with `fuel` bounding the recursion
(`fuel = n` always suffices).  Structural in `fuel` so it reduces by `rfl`. -/
def digitsAux : Nat → Nat → List Nat
  | 0, _ => []
  | fuel + 1, n => if n = 0 then [] else digitsAux fuel (n / 10) ++ [n % 10]

/-- Big-endian decimal digits of `n`, rendering `0` as `[0]`. -/
def pyDigits (n : Nat) : List Nat :=
  if n = 0 then [0] else digitsAux n n

/-- The decimal string for a natural number, exactly what Python's
`str` produces on a non-negative int. -/
def pyStr (n : Nat) : String :=
  String.mk ((pyDigits n).map Nat.digitChar)

/-- Evaluate a big-endian digit list back to a natural number. -/
def ofDigits (ds : List Nat) : Nat :=
  ds.foldl (fun a d => a * 10 + d) 0

theorem ofDigits_append (xs ys : List Nat) :
    ofDigits (xs ++ ys) = ys.foldl (fun a d => a * 10 + d) (ofDigits xs) := by
  simp [ofDigits, List.foldl_append]

theorem ofDigits_digitsAux (fuel : Nat) :
    ∀ n, n ≤ fuel → ofDigits (digitsAux fuel n) = n := by
  induction fuel with
  | zero =>
    intro n hn
    interval_cases n
    simp [digitsAux, ofDigits]
  | succ fuel ih =>
    intro n hn
    by_cases h0 : n = 0
    · simp [digitsAux, h0, ofDigits]
    · have hdiv : n / 10 ≤ fuel := by
        have : n / 10 < n := Nat.div_lt_self (Nat.pos_of_ne_zero h0) (by omega)
        omega
      simp only [digitsAux, h0, if_false, ofDigits_append, ih _ hdiv]
      simp only [List.foldl_cons, List.foldl_nil]
      omega

theorem ofDigits_pyDigits (n : Nat) : ofDigits (pyDigits n) = n := by
  by_cases h0 : n = 0
  · simp [pyDigits, h0, ofDigits]
  · simp [pyDigits, h0, ofDigits_digitsAux n n le_rfl]

theorem digitsAux_lt_ten (fuel : Nat) :
    ∀ n, ∀ d ∈ digitsAux fuel n, d < 10 := by
  induction fuel with
  | zero => intro n d hd; simp [digitsAux] at hd
  | succ fuel ih =>
    intro n d hd
    by_cases h0 : n = 0
    · simp [digitsAux, h0] at hd
    · simp only [digitsAux, h0, if_false, List.mem_append, List.mem_singleton] at hd
      rcases hd with hd | hd
      · exact ih _ _ hd
      · subst hd; exact Nat.mod_lt _ (by omega)

theorem pyDigits_lt_ten (n : Nat) : ∀ d ∈ pyDigits n, d < 10 := by
  by_cases h0 : n = 0
  · simp [pyDigits, h0]
  · simp only [pyDigits, h0, if_false]
    exact digitsAux_lt_ten n n

theorem digitChar_injOn :
    ∀ d < 10, ∀ e < 10, Nat.digitChar d = Nat.digitChar e → d = e := by
  decide

theorem map_digitChar_inj :
    ∀ xs ys : List Nat, (∀ x ∈ xs, x < 10) → (∀ y ∈ ys, y < 10) →
      xs.map Nat.digitChar = ys.map Nat.digitChar → xs = ys := by
  intro xs
  induction xs with
  | nil => intro ys _ _ h; cases ys <;> simp_all
  | cons x xs ih =>
    intro ys hx hy h
    cases ys with
    | nil => simp at h
    | cons y ys =>
      simp only [List.map_cons, List.cons.injEq] at h
      have hxy : x = y :=
        digitChar_injOn x (hx x (by simp)) y (hy y (by simp)) h.1
      have := ih ys (fun a ha => hx a (by simp [ha]))
        (fun a ha => hy a (by simp [ha])) h.2
      simp [hxy, this]

theorem pyStr_injective : Function.Injective pyStr := by
  intro m n h
  have hlist : (pyDigits m).map Nat.digitChar = (pyDigits n).map Nat.digitChar := by
    simpa [pyStr] using congrArg String.data h
  have hdig : pyDigits m = pyDigits n :=
    map_digitChar_inj _ _ (pyDigits_lt_ten m) (pyDigits_lt_ten n) hlist
  have := congrArg ofDigits hdig
  simpa [ofDigits_pyDigits] using this

/-! ### Association lists, modelling Python dicts (insertion order kept) -/

/-- Python `d[k]` as an option: the value at `k`, if present. -/
def dictGet {α : Type} (k : String) : List (String × α) → Option α
  | [] => none
  | (k', v) :: rest => if k = k' then some v else dictGet k rest

/-- Python `d[k] = v`: update in place if the key exists (keeping its
position), otherwise append at the end — exactly Python dict semantics. -/
def dictSet {α : Type} (k : String) (v : α) : List (String × α) → List (String × α)
  | [] => [(k, v)]
  | (k', v') :: rest =>
    if k = k' then (k, v) :: rest else (k', v') :: dictSet k v rest

theorem dictGet_dictSet_self {α : Type} (k : String) (v : α)
    (m : List (String × α)) : dictGet k (dictSet k v m) = some v := by
  induction m with
  | nil => simp [dictGet, dictSet]
  | cons kv rest ih =>
    obtain ⟨k', v'⟩ := kv
    by_cases h : k = k' <;> simp [dictGet, dictSet, h, ih]

theorem dictGet_dictSet_ne {α : Type} {k k' : String} (v : α)
    (m : List (String × α)) (h : k ≠ k') :
    dictGet k (dictSet k' v m) = dictGet k m := by
  induction m with
  | nil => simp [dictGet, dictSet, h]
  | cons kv rest ih =>
    obtain ⟨k₀, v₀⟩ := kv
    by_cases h0 : k' = k₀
    · subst h0; simp [dictGet, dictSet, h]
    · by_cases h1 : k = k₀ <;> simp [dictGet, dictSet, h0, h1, ih]

theorem dictSet_of_not_mem {α : Type} (k : String) (v : α)
    (m : List (String × α)) (h : dictGet k m = none) :
    dictSet k v m = m ++ [(k, v)] := by
  induction m with
  | nil => simp [dictSet]
  | cons kv rest ih =>
    obtain ⟨k', v'⟩ := kv
    by_cases h0 : k = k'
    · simp [dictGet, h0] at h
    · simp only [dictGet, h0, if_false] at h
      simp [dictSet, h0, ih h]

/-! ### Entity model, from `github_fake.py` -/

abbrev GraphQLId := String
abbrev GitHubNumber := Nat

/-- `@dataclass Repository(Node)`: dataclass equality compares all three
fields, which the derived `DecidableEq` reproduces. -/
structure Repository where
  id : GraphQLId
  name : String
  nameWithOwner : String
deriving DecidableEq

/-- `@dataclass PullRequest(Node)` with the fields the fake keeps.
`_repository` stores the owning repository's id (the cycle breaker). -/
structure PullRequest where
  id : GraphQLId
  baseRefName : String
  body : String
  headRefName : String
  number : GitHubNumber
  _repository : GraphQLId
  title : String
  url : String
deriving DecidableEq

/-- The mock's database, `GitHubState`.  The dicts are association lists in
insertion order; `root` carries no state and is omitted. -/
structure GitHubState where
  repositories : List (GraphQLId × Repository)
  pull_requests : List (GraphQLId × PullRequest)
  _next_id : Nat
  _next_pull_request_number : List (GraphQLId × Nat)

/-- `GitHubState.next_id`: renders the counter and advances it. -/
def GitHubState.next_id (s : GitHubState) : GraphQLId × GitHubState :=
  (pyStr s._next_id, { s with _next_id := s._next_id + 1 })

/-- `GitHubState.next_pull_request_number`: reads the per-repository
counter (`KeyError` if unseeded, raised before any mutation) and advances
it. -/
def GitHubState.next_pull_request_number (repo_id : GraphQLId) (s : GitHubState) :
    Except String GitHubNumber × GitHubState :=
  match dictGet repo_id s._next_pull_request_number with
  | none => (.error ("KeyError: " ++ repo_id), s)
  | some n =>
      (.ok n,
       { s with _next_pull_request_number :=
           dictSet repo_id (n + 1) s._next_pull_request_number })

/-- `GitHubState.__init__`: seeds the pytorch/pytorch repository with id
"1000", its pull-request counter at 500, and the id counter at 5000. -/
def GitHubState.init : GitHubState :=
  { repositories :=
      [("1000", { id := "1000", name := "pytorch",
                  nameWithOwner := "pytorch/pytorch" })],
    pull_requests := [],
    _next_id := 5000,
    _next_pull_request_number := [("1000", 500)] }

/-- `PullRequest.repository`: direct dict lookup by the stored owning
repository id; `KeyError` if dangling. -/
def PullRequest.repository (pr : PullRequest) (s : GitHubState) :
    Except String Repository :=
  match dictGet pr._repository s.repositories with
  | none => .error ("KeyError: " ++ pr._repository)
  | some r => .ok r

/-- Loop body of `Repository.pullRequest`: scan the pull requests in dict
order, resolve each one's repository (propagating a `KeyError`), and return
the first whose repository equals `self` and whose number matches. -/
def Repository.pullRequestAux (self : Repository) (number : GitHubNumber)
    (s : GitHubState) : List (GraphQLId × PullRequest) → Except String PullRequest
  | [] =>
      .error ("unrecognized pull request #" ++ pyStr number ++
        " in repository " ++ self.nameWithOwner)
  | (_, pr) :: rest =>
      match pr.repository s with
      | .error e => .error e
      | .ok r =>
          if self = r ∧ pr.number = number then .ok pr
          else Repository.pullRequestAux self number s rest

/-- `Repository.pullRequest(number)`. -/
def Repository.pullRequest (self : Repository) (number : GitHubNumber)
    (s : GitHubState) : Except String PullRequest :=
  Repository.pullRequestAux self number s s.pull_requests

/-- Loop body of `Repository.pullRequests`: filter the pull requests in
dict order by `self == pr.repository(info)`, propagating a `KeyError` from
any repository resolution. -/
def Repository.pullRequestsAux (self : Repository) (s : GitHubState) :
    List (GraphQLId × PullRequest) → Except String (List PullRequest)
  | [] => .ok []
  | (_, pr) :: rest =>
      match pr.repository s with
      | .error e => .error e
      | .ok r =>
          match Repository.pullRequestsAux self s rest with
          | .error e => .error e
          | .ok l => .ok (if self = r then pr :: l else l)

/-- `Repository.pullRequests()` (the nodes of the returned connection). -/
def Repository.pullRequests (self : Repository) (s : GitHubState) :
    Except String (List PullRequest) :=
  Repository.pullRequestsAux self s s.pull_requests

/-- The result of `Root.node`: either entity kind. -/
inductive NodeResult where
  | repo (r : Repository)
  | pr (p : PullRequest)
deriving DecidableEq

/-- Loop body of `Root.repository`: scan repositories in dict order for a
matching `nameWithOwner`. -/
def Root.repositoryAux (nameWithOwner : String) :
    List (GraphQLId × Repository) → Except String Repository
  | [] => .error ("unknown repository " ++ nameWithOwner)
  | (_, r) :: rest =>
      if r.nameWithOwner = nameWithOwner then .ok r
      else Root.repositoryAux nameWithOwner rest

/-- `Root.repository(owner, name)`. -/
def Root.repository (owner name : String) (s : GitHubState) :
    Except String Repository :=
  Root.repositoryAux (owner ++ "/" ++ name) s.repositories

/-- `Root.node(id)`: repositories first, then pull requests, else
`RuntimeError("unknown id ...")`. -/
def Root.node (id : GraphQLId) (s : GitHubState) : Except String NodeResult :=
  match dictGet id s.repositories with
  | some r => .ok (.repo r)
  | none =>
      match dictGet id s.pull_requests with
      | some pr => .ok (.pr pr)
      | none => .error ("unknown id " ++ id)

/-! ### Mutation inputs and payloads

A `TypedDict` optional field is modelled as `Option (Option String)`:
the outer layer is key presence in the dict, the inner layer is
non-`None`-ness.  `input.get(k)` is then `Option.join`. -/

structure UpdatePullRequestInput where
  baseRefName : Option (Option String)
  title : Option (Option String)
  body : Option (Option String)
  clientMutationId : Option (Option String)
  pullRequestId : GraphQLId

structure CreatePullRequestInput where
  baseRefName : String
  headRefName : String
  title : String
  body : String
  clientMutationId : Option (Option String)
  ownerId : GraphQLId

structure UpdatePullRequestPayload where
  clientMutationId : Option String
  pullRequest : PullRequest
deriving DecidableEq

structure CreatePullRequestPayload where
  clientMutationId : Option String
  pullRequest : PullRequest
deriving DecidableEq

/-- `if k in input and input[k] is not None: attr = input[k]`. -/
def applyOpt (cur : String) (field : Option (Option String)) : String :=
  match field with
  | some (some v) => v
  | _ => cur

/-- The three in-place field assignments of `Root.updatePullRequest`. -/
def updatedPullRequest (pr : PullRequest) (input : UpdatePullRequestInput) :
    PullRequest :=
  { pr with
      title := applyOpt pr.title input.title,
      baseRefName := applyOpt pr.baseRefName input.baseRefName,
      body := applyOpt pr.body input.body }

/-- `Root.updatePullRequest`: looks the pull request up (`KeyError` if
absent), overwrites exactly the present-and-non-null optional fields, and
returns the payload; the store holds the mutated entity. -/
def Root.updatePullRequest (input : UpdatePullRequestInput) (s : GitHubState) :
    Except String UpdatePullRequestPayload × GitHubState :=
  match dictGet input.pullRequestId s.pull_requests with
  | none => (.error ("KeyError: " ++ input.pullRequestId), s)
  | some pr =>
      let pr' := updatedPullRequest pr input
      (.ok { clientMutationId := input.clientMutationId.join, pullRequest := pr' },
       { s with pull_requests := dictSet input.pullRequestId pr' s.pull_requests })

/-- The pull request built by `Root.createPullRequest`. -/
def newPullRequest (input : CreatePullRequestInput) (id : GraphQLId)
    (repo : Repository) (number : GitHubNumber) : PullRequest :=
  { id := id,
    _repository := input.ownerId,
    number := number,
    url := "https://github.com/" ++ repo.nameWithOwner ++ "/pull/" ++
      pyStr number,
    baseRefName := input.baseRefName,
    headRefName := input.headRefName,
    title := input.title,
    body := input.body }

/-- `Root.createPullRequest`: allocates a fresh id (before anything can
fail), resolves the owning repository (`KeyError` if absent), allocates the
next number, builds the pull request with its display URL, and inserts it. -/
def Root.createPullRequest (input : CreatePullRequestInput) (s : GitHubState) :
    Except String CreatePullRequestPayload × GitHubState :=
  let (id, s1) := s.next_id
  match dictGet input.ownerId s1.repositories with
  | none => (.error ("KeyError: " ++ input.ownerId), s1)
  | some repo =>
      match GitHubState.next_pull_request_number input.ownerId s1 with
      | (.error e, s2) => (.error e, s2)
      | (.ok number, s2) =>
          let pr := newPullRequest input id repo number
          (.ok { clientMutationId := input.clientMutationId.join, pullRequest := pr },
           { s2 with pull_requests := dictSet id pr s2.pull_requests })

/-! ### The query execution facade

`graphql_sync` itself is the external schema engine; its result is taken as
an abstract value with a `data` payload and the engine's (optional) error
list, and the facade's dispatch on it is what the repository implements. -/

structure GraphQLSyncResult (α : Type) where
  data : α
  errors : Option (List String)

structure GraphQLResponse (α : Type) where
  data : α

/-- Python truthiness of the engine's `errors` attribute (`None` and the
empty list are falsy). -/
def errorsTruthy : Option (List String) → Bool
  | none => false
  | some es => !es.isEmpty

/-- `FakeGitHubGraphQLEndpoint.graphql`, after the engine ran: raise one
aggregated `RuntimeError` when the result has errors, otherwise wrap the
data. -/
def FakeGitHubGraphQLEndpoint.graphql {α : Type} (r : GraphQLSyncResult α) :
    Except String (GraphQLResponse α) :=
  if errorsTruthy r.errors then
    .error ("GraphQL query failed with errors:\n\n" ++
      String.intercalate "\n" (r.errors.getD []))
  else
    .ok { data := r.data }

/-! ### Operation traces

An `Op` is one call against the endpoint: a mutation or a query.  Query
resolvers never write the store, so only the two mutations transform the
state. -/

inductive Op where
  | create (input : CreatePullRequestInput)
  | update (input : UpdatePullRequestInput)
  | qRepository (owner name : String)
  | qNode (id : GraphQLId)
  | qPullRequest (repo : Repository) (number : GitHubNumber)
  | qPullRequests (repo : Repository)

/-- The state after one call (queries leave it unchanged; a failed
mutation leaves whatever it mutated before raising). -/
def applyOp (s : GitHubState) : Op → GitHubState
  | .create i => (Root.createPullRequest i s).2
  | .update i => (Root.updatePullRequest i s).2
  | .qRepository _ _ => s
  | .qNode _ => s
  | .qPullRequest _ _ => s
  | .qPullRequests _ => s

def runOps (s : GitHubState) : List Op → GitHubState
  | [] => s
  | op :: ops => runOps (applyOp s op) ops

/-- The `number`s returned by the successful `createPullRequest` calls of a
trace that target repository `R`, in call order. -/
def createdNumbers (R : GraphQLId) (s : GitHubState) : List Op → List GitHubNumber
  | [] => []
  | op :: ops =>
      let rest := createdNumbers R (applyOp s op) ops
      match op with
      | .create i =>
          if i.ownerId = R then
            match (Root.createPullRequest i s).1 with
            | .ok payload => payload.pullRequest.number :: rest
            | .error _ => rest
          else rest
      | _ => rest

/-- The identifiers handed out by `next_id` along a trace (every
`createPullRequest` call allocates exactly one, successful or not; no other
operation allocates). -/
def allocatedIds (s : GitHubState) : List Op → List GraphQLId
  | [] => []
  | op :: ops =>
      match op with
      | .create _ => (s.next_id).1 :: allocatedIds (applyOp s op) ops
      | _ => allocatedIds (applyOp s op) ops

/-- Number of `createPullRequest` calls in a trace. -/
def countCreates : List Op → Nat
  | [] => 0
  | .create _ :: ops => countCreates ops + 1
  | _ :: ops => countCreates ops

/-! ### Characterizations of the two mutations, case by case -/

theorem create_none {i : CreatePullRequestInput} {s : GitHubState}
    (h : dictGet i.ownerId s.repositories = none) :
    Root.createPullRequest i s =
      (.error ("KeyError: " ++ i.ownerId), { s with _next_id := s._next_id + 1 }) := by
  simp [Root.createPullRequest, GitHubState.next_id, h]

theorem create_noCounter {i : CreatePullRequestInput} {s : GitHubState}
    {repo : Repository}
    (hr : dictGet i.ownerId s.repositories = some repo)
    (hc : dictGet i.ownerId s._next_pull_request_number = none) :
    Root.createPullRequest i s =
      (.error ("KeyError: " ++ i.ownerId), { s with _next_id := s._next_id + 1 }) := by
  simp [Root.createPullRequest, GitHubState.next_id,
    GitHubState.next_pull_request_number, hr, hc]

theorem create_ok {i : CreatePullRequestInput} {s : GitHubState}
    {repo : Repository} {c : Nat}
    (hr : dictGet i.ownerId s.repositories = some repo)
    (hc : dictGet i.ownerId s._next_pull_request_number = some c) :
    Root.createPullRequest i s =
      (.ok { clientMutationId := i.clientMutationId.join,
             pullRequest := newPullRequest i (pyStr s._next_id) repo c },
       { repositories := s.repositories,
         pull_requests :=
           dictSet (pyStr s._next_id) (newPullRequest i (pyStr s._next_id) repo c)
             s.pull_requests,
         _next_id := s._next_id + 1,
         _next_pull_request_number :=
           dictSet i.ownerId (c + 1) s._next_pull_request_number }) := by
  simp [Root.createPullRequest, GitHubState.next_id,
    GitHubState.next_pull_request_number, hr, hc]

/-- Inversion: a successful creation means both lookups succeeded. -/
theorem create_ok_inv {i : CreatePullRequestInput} {s : GitHubState}
    {payload : CreatePullRequestPayload} {s' : GitHubState}
    (h : Root.createPullRequest i s = (.ok payload, s')) :
    ∃ repo c, dictGet i.ownerId s.repositories = some repo ∧
      dictGet i.ownerId s._next_pull_request_number = some c ∧
      payload = { clientMutationId := i.clientMutationId.join,
                  pullRequest := newPullRequest i (pyStr s._next_id) repo c } ∧
      s' = { repositories := s.repositories,
             pull_requests :=
               dictSet (pyStr s._next_id)
                 (newPullRequest i (pyStr s._next_id) repo c) s.pull_requests,
             _next_id := s._next_id + 1,
             _next_pull_request_number :=
               dictSet i.ownerId (c + 1) s._next_pull_request_number } := by
  rcases hr : dictGet i.ownerId s.repositories with _ | repo
  · rw [create_none hr] at h
    exact absurd (congrArg Prod.fst h) (by simp)
  · rcases hc : dictGet i.ownerId s._next_pull_request_number with _ | c
    · rw [create_noCounter hr hc] at h
      exact absurd (congrArg Prod.fst h) (by simp)
    · rw [create_ok hr hc] at h
      refine ⟨repo, c, rfl, rfl, ?_, ?_⟩
      · have := congrArg Prod.fst h
        simp only [Prod.fst] at this
        exact (Except.ok.inj this).symm
      · have := congrArg Prod.snd h
        simpa using this.symm

theorem update_none {i : UpdatePullRequestInput} {s : GitHubState}
    (h : dictGet i.pullRequestId s.pull_requests = none) :
    Root.updatePullRequest i s = (.error ("KeyError: " ++ i.pullRequestId), s) := by
  simp [Root.updatePullRequest, h]

theorem update_some {i : UpdatePullRequestInput} {s : GitHubState}
    {pr : PullRequest} (h : dictGet i.pullRequestId s.pull_requests = some pr) :
    Root.updatePullRequest i s =
      (.ok { clientMutationId := i.clientMutationId.join,
             pullRequest := updatedPullRequest pr i },
       { s with pull_requests :=
           dictSet i.pullRequestId (updatedPullRequest pr i) s.pull_requests }) := by
  simp [Root.updatePullRequest, h]

/-! ### More association-list lemmas -/

theorem mem_of_dictGet_eq_some {α : Type} {k : String} {v : α}
    {m : List (String × α)} (h : dictGet k m = some v) : (k, v) ∈ m := by
  induction m with
  | nil => simp [dictGet] at h
  | cons kv rest ih =>
    obtain ⟨k', v'⟩ := kv
    by_cases h0 : k = k'
    · simp only [dictGet, h0, if_true] at h
      simp [h0, ← Option.some.inj h]
    · simp only [dictGet, h0, if_false] at h
      simp [ih h]

theorem dictGet_eq_none {α : Type} {k : String} {m : List (String × α)}
    (h : ∀ p ∈ m, p.1 ≠ k) : dictGet k m = none := by
  induction m with
  | nil => simp [dictGet]
  | cons kv rest ih =>
    have hk : kv.1 ≠ k := h kv (by simp)
    simp only [dictGet, Ne.symm hk, if_false]
    exact ih fun p hp => h p (by simp [hp])

theorem mem_dictSet {α : Type} {p : String × α} {k : String} {v : α}
    {m : List (String × α)} (h : p ∈ dictSet k v m) : p ∈ m ∨ p = (k, v) := by
  induction m with
  | nil =>
    simp only [dictSet, List.mem_singleton] at h
    exact Or.inr h
  | cons kv rest ih =>
    obtain ⟨k', v'⟩ := kv
    by_cases h0 : k = k'
    · simp only [dictSet, h0, if_true] at h
      rcases List.mem_cons.mp h with h1 | h1
      · exact Or.inr (by rw [h0]; exact h1)
      · exact Or.inl (List.mem_cons_of_mem _ h1)
    · simp only [dictSet, h0, if_false] at h
      rcases List.mem_cons.mp h with h1 | h1
      · exact Or.inl (h1 ▸ List.mem_cons_self _ _)
      · rcases ih h1 with h2 | h2
        · exact Or.inl (List.mem_cons_of_mem _ h2)
        · exact Or.inr h2

theorem map_fst_dictSet_of_mem {α : Type} {k : String} {v w : α}
    {m : List (String × α)} (h : dictGet k m = some w) :
    (dictSet k v m).map Prod.fst = m.map Prod.fst := by
  induction m with
  | nil => simp [dictGet] at h
  | cons kv rest ih =>
    obtain ⟨k', v'⟩ := kv
    by_cases h0 : k = k'
    · simp [dictSet, h0]
    · simp only [dictGet, h0, if_false] at h
      simp [dictSet, h0, ih h]

/-! ### The reachability invariant -/

/-- Everything that holds of the store in every state reachable from the
seed: the repository dict is the seeded one, the single counter is at least
500, ids at least 5000, pull-request keys are decimals of allocated
counters below `_next_id`, keys coincide with the entities' `id` fields,
keys never repeat, and every owning-repository reference resolves. -/
structure Inv (s : GitHubState) : Prop where
  repos_eq : s.repositories = GitHubState.init.repositories
  counters : ∃ c, 500 ≤ c ∧ s._next_pull_request_number = [("1000", c)]
  next_id_lb : 5000 ≤ s._next_id
  pr_keys : ∀ p ∈ s.pull_requests, ∃ n, 5000 ≤ n ∧ n < s._next_id ∧ p.1 = pyStr n
  pr_key_id : ∀ p ∈ s.pull_requests, p.2.id = p.1
  keys_nodup : (s.pull_requests.map Prod.fst).Nodup
  no_dangle : ∀ p ∈ s.pull_requests, (dictGet p.2._repository s.repositories).isSome

theorem inv_init : Inv GitHubState.init := by
  refine ⟨rfl, ⟨500, le_rfl, rfl⟩, le_rfl, ?_, ?_, ?_, ?_⟩ <;>
    simp [GitHubState.init]

/-- The id about to be allocated is not yet a pull-request key. -/
theorem fresh_key {s : GitHubState} (h : Inv s) :
    dictGet (pyStr s._next_id) s.pull_requests = none := by
  apply dictGet_eq_none
  intro p hp hk
  obtain ⟨n, _, hlt, hn⟩ := h.pr_keys p hp
  have : n = s._next_id := pyStr_injective (hn ▸ hk)
  omega

theorem inv_applyOp {s : GitHubState} (op : Op) (h : Inv s) :
    Inv (applyOp s op) := by
  cases op with
  | qRepository owner name => exact h
  | qNode id => exact h
  | qPullRequest repo number => exact h
  | qPullRequests repo => exact h
  | update i =>
      obtain ⟨hrepos, ⟨c₀, hc₀, hcnt⟩, hid, hkeys, hkid, hnd, hdangle⟩ := h
      show Inv (Root.updatePullRequest i s).2
      rcases hg : dictGet i.pullRequestId s.pull_requests with _ | pr
      · have hstep : (Root.updatePullRequest i s).2 = s := by
          rw [update_none hg]
        rw [hstep]
        exact ⟨hrepos, ⟨c₀, hc₀, hcnt⟩, hid, hkeys, hkid, hnd, hdangle⟩
      · have hstep : (Root.updatePullRequest i s).2 =
            { s with pull_requests :=
                dictSet i.pullRequestId (updatedPullRequest pr i) s.pull_requests } := by
          rw [update_some hg]
        rw [hstep]
        have hmem : (i.pullRequestId, pr) ∈ s.pull_requests :=
          mem_of_dictGet_eq_some hg
        refine ⟨hrepos, ⟨c₀, hc₀, hcnt⟩, hid, ?_, ?_, ?_, ?_⟩
        · intro p hp
          rcases mem_dictSet hp with hp | hp
          · exact hkeys p hp
          · obtain ⟨n, h1, h2, h3⟩ := hkeys _ hmem
            exact ⟨n, h1, h2, by rw [hp]; exact h3⟩
        · intro p hp
          rcases mem_dictSet hp with hp | hp
          · exact hkid p hp
          · rw [hp]
            show (updatedPullRequest pr i).id = i.pullRequestId
            have : pr.id = i.pullRequestId := hkid _ hmem
            simpa [updatedPullRequest] using this
        · show ((dictSet i.pullRequestId _ s.pull_requests).map Prod.fst).Nodup
          rw [map_fst_dictSet_of_mem hg]
          exact hnd
        · intro p hp
          rcases mem_dictSet hp with hp | hp
          · exact hdangle p hp
          · rw [hp]
            show (dictGet (updatedPullRequest pr i)._repository s.repositories).isSome
            have hsame : (updatedPullRequest pr i)._repository = pr._repository := by
              simp [updatedPullRequest]
            rw [hsame]
            exact hdangle _ hmem
  | create i =>
      obtain ⟨hrepos, ⟨c₀, hc₀, hcnt⟩, hid, hkeys, hkid, hnd, hdangle⟩ := h
      show Inv (Root.createPullRequest i s).2
      rcases hr : dictGet i.ownerId s.repositories with _ | repo
      · have hstep : (Root.createPullRequest i s).2 =
            { s with _next_id := s._next_id + 1 } := by
          rw [create_none hr]
        rw [hstep]
        refine ⟨hrepos, ⟨c₀, hc₀, hcnt⟩, by simp; omega, ?_, hkid, hnd, hdangle⟩
        intro p hp
        obtain ⟨n, h1, h2, h3⟩ := hkeys p hp
        exact ⟨n, h1, by simp; omega, h3⟩
      · rcases hc : dictGet i.ownerId s._next_pull_request_number with _ | c
        · have hstep : (Root.createPullRequest i s).2 =
              { s with _next_id := s._next_id + 1 } := by
            rw [create_noCounter hr hc]
          rw [hstep]
          refine ⟨hrepos, ⟨c₀, hc₀, hcnt⟩, by simp; omega, ?_, hkid, hnd, hdangle⟩
          intro p hp
          obtain ⟨n, h1, h2, h3⟩ := hkeys p hp
          exact ⟨n, h1, by simp; omega, h3⟩
        · have hstep : (Root.createPullRequest i s).2 =
              { repositories := s.repositories,
                pull_requests :=
                  dictSet (pyStr s._next_id)
                    (newPullRequest i (pyStr s._next_id) repo c) s.pull_requests,
                _next_id := s._next_id + 1,
                _next_pull_request_number :=
                  dictSet i.ownerId (c + 1) s._next_pull_request_number } := by
            rw [create_ok hr hc]
          rw [hstep]
          have howner : i.ownerId = "1000" ∧ c₀ = c := by
            rw [hcnt] at hc
            by_cases ho : i.ownerId = "1000"
            · simpa [dictGet, ho] using hc
            · simp [dictGet, ho] at hc
          have hfresh : dictGet (pyStr s._next_id) s.pull_requests = none := by
            apply dictGet_eq_none
            intro p hp hk
            obtain ⟨n, _, hlt, hn⟩ := hkeys p hp
            have : n = s._next_id := pyStr_injective (hn ▸ hk)
            omega
          have happend :
              dictSet (pyStr s._next_id)
                (newPullRequest i (pyStr s._next_id) repo c) s.pull_requests =
              s.pull_requests ++
                [(pyStr s._next_id, newPullRequest i (pyStr s._next_id) repo c)] :=
            dictSet_of_not_mem _ _ _ hfresh
          refine ⟨hrepos, ?_, by show 5000 ≤ s._next_id + 1; omega, ?_, ?_, ?_, ?_⟩
          · refine ⟨c + 1, by omega, ?_⟩
            show dictSet i.ownerId (c + 1) s._next_pull_request_number = _
            rw [hcnt, howner.1]
            simp [dictSet]
          · intro p hp
            rcases mem_dictSet hp with hp | hp
            · obtain ⟨n, h1, h2, h3⟩ := hkeys p hp
              exact ⟨n, h1, by show n < s._next_id + 1; omega, h3⟩
            · exact ⟨s._next_id, hid, by show s._next_id < s._next_id + 1; omega,
                by rw [hp]⟩
          · intro p hp
            rcases mem_dictSet hp with hp | hp
            · exact hkid p hp
            · rw [hp]
              show (newPullRequest i (pyStr s._next_id) repo c).id = pyStr s._next_id
              simp [newPullRequest]
          · show ((dictSet (pyStr s._next_id) _ s.pull_requests).map Prod.fst).Nodup
            rw [happend]
            simp only [List.map_append, List.map_cons, List.map_nil]
            rw [List.nodup_append]
            refine ⟨hnd, by simp, ?_⟩
            intro a ha hb
            simp only [List.mem_singleton] at hb
            subst hb
            simp only [List.mem_map] at ha
            obtain ⟨p, hp, hpk⟩ := ha
            obtain ⟨n, _, hlt, hn⟩ := hkeys p hp
            have : n = s._next_id := pyStr_injective (hn ▸ hpk)
            omega
          · intro p hp
            rcases mem_dictSet hp with hp | hp
            · exact hdangle p hp
            · rw [hp]
              show (dictGet (newPullRequest i (pyStr s._next_id) repo c)._repository
                s.repositories).isSome
              simp [newPullRequest, hr]

theorem inv_runOps (ops : List Op) :
    ∀ s : GitHubState, Inv s → Inv (runOps s ops) := by
  induction ops with
  | nil => intro s h; exact h
  | cons op ops ih => intro s h; exact ih _ (inv_applyOp op h)

theorem inv_reachable (ops : List Op) : Inv (runOps GitHubState.init ops) :=
  inv_runOps ops _ inv_init

/-! ### Effect of each operation on the allocators -/

theorem applyOp_next_id_create (i : CreatePullRequestInput) (s : GitHubState) :
    (applyOp s (.create i))._next_id = s._next_id + 1 := by
  show (Root.createPullRequest i s).2._next_id = _
  rcases hr : dictGet i.ownerId s.repositories with _ | repo
  · rw [create_none hr]
  · rcases hc : dictGet i.ownerId s._next_pull_request_number with _ | c
    · rw [create_noCounter hr hc]
    · rw [create_ok hr hc]

theorem applyOp_next_id_update (i : UpdatePullRequestInput) (s : GitHubState) :
    (applyOp s (.update i))._next_id = s._next_id := by
  show (Root.updatePullRequest i s).2._next_id = _
  rcases hg : dictGet i.pullRequestId s.pull_requests with _ | pr
  · rw [update_none hg]
  · rw [update_some hg]

theorem counters_applyOp_update (i : UpdatePullRequestInput) (s : GitHubState) :
    (applyOp s (.update i))._next_pull_request_number =
      s._next_pull_request_number := by
  show (Root.updatePullRequest i s).2._next_pull_request_number = _
  rcases hg : dictGet i.pullRequestId s.pull_requests with _ | pr
  · rw [update_none hg]
  · rw [update_some hg]

theorem counters_applyOp_create_other {R : GraphQLId} (i : CreatePullRequestInput)
    (s : GitHubState) (hR : i.ownerId ≠ R) :
    dictGet R (applyOp s (.create i))._next_pull_request_number =
      dictGet R s._next_pull_request_number := by
  show dictGet R (Root.createPullRequest i s).2._next_pull_request_number = _
  rcases hr : dictGet i.ownerId s.repositories with _ | repo
  · rw [create_none hr]
  · rcases hc : dictGet i.ownerId s._next_pull_request_number with _ | c
    · rw [create_noCounter hr hc]
    · rw [create_ok hr hc]
      exact dictGet_dictSet_ne _ _ (Ne.symm hR)

/-! ### The allocated-identifier trace -/

theorem allocatedIds_eq (ops : List Op) :
    ∀ s : GitHubState,
      allocatedIds s ops = (List.range' s._next_id (countCreates ops)).map pyStr := by
  induction ops with
  | nil => intro s; rfl
  | cons op ops ih =>
    intro s
    cases op with
    | create i =>
        show (s.next_id).1 :: allocatedIds (applyOp s (.create i)) ops = _
        rw [ih, applyOp_next_id_create]
        rfl
    | update i =>
        show allocatedIds (applyOp s (.update i)) ops = _
        rw [ih, applyOp_next_id_update]
        rfl
    | qRepository o n =>
        show allocatedIds s ops = _
        rw [ih]
        rfl
    | qNode id =>
        show allocatedIds s ops = _
        rw [ih]
        rfl
    | qPullRequest r n =>
        show allocatedIds s ops = _
        rw [ih]
        rfl
    | qPullRequests r =>
        show allocatedIds s ops = _
        rw [ih]
        rfl

theorem pyStr_1000 : pyStr 1000 = "1000" := by decide

theorem pyStr_ne_1000 {n : Nat} (h : 5000 ≤ n) : pyStr n ≠ "1000" := by
  intro hc
  have : n = 1000 := pyStr_injective (by rw [hc, pyStr_1000])
  omega

/-! ### The created-number trace -/

theorem createdNumbers_cons_create (R : GraphQLId) (i : CreatePullRequestInput)
    (s : GitHubState) (ops : List Op) :
    createdNumbers R s (.create i :: ops) =
      if i.ownerId = R then
        match (Root.createPullRequest i s).1 with
        | .ok payload =>
            payload.pullRequest.number ::
              createdNumbers R (applyOp s (.create i)) ops
        | .error _ => createdNumbers R (applyOp s (.create i)) ops
      else createdNumbers R (applyOp s (.create i)) ops := rfl

theorem createdNumbers_eq_range (R : GraphQLId) (ops : List Op) :
    ∀ s c, dictGet R s._next_pull_request_number = some c →
      ∃ k, createdNumbers R s ops = List.range' c k := by
  induction ops with
  | nil => intro s c _; exact ⟨0, rfl⟩
  | cons op ops ih =>
    intro s c hc
    cases op with
    | create i =>
        rw [createdNumbers_cons_create]
        by_cases hR : i.ownerId = R
        · rw [if_pos hR]
          subst hR
          rcases hr : dictGet i.ownerId s.repositories with _ | repo
          · have h1 : (Root.createPullRequest i s).1 =
                .error ("KeyError: " ++ i.ownerId) := by rw [create_none hr]
            have h2 : (applyOp s (.create i))._next_pull_request_number =
                s._next_pull_request_number := by
              show (Root.createPullRequest i s).2._next_pull_request_number = _
              rw [create_none hr]
            rw [h1]
            exact ih _ c (by rw [h2]; exact hc)
          · have h1 : (Root.createPullRequest i s).1 =
                .ok { clientMutationId := i.clientMutationId.join,
                      pullRequest := newPullRequest i (pyStr s._next_id) repo c } := by
              rw [create_ok hr hc]
            have h2 : (applyOp s (.create i))._next_pull_request_number =
                dictSet i.ownerId (c + 1) s._next_pull_request_number := by
              show (Root.createPullRequest i s).2._next_pull_request_number = _
              rw [create_ok hr hc]
            rw [h1]
            obtain ⟨k, hk⟩ := ih (applyOp s (.create i)) (c + 1)
              (by rw [h2]; exact dictGet_dictSet_self _ _ _)
            refine ⟨k + 1, ?_⟩
            show (newPullRequest i (pyStr s._next_id) repo c).number :: _ = _
            have hnum : (newPullRequest i (pyStr s._next_id) repo c).number = c := rfl
            rw [hnum, hk]
            rfl
        · rw [if_neg hR]
          exact ih _ c (by rw [counters_applyOp_create_other i s hR]; exact hc)
    | update i =>
        have hu : createdNumbers R s (.update i :: ops) =
            createdNumbers R (applyOp s (.update i)) ops := rfl
        rw [hu]
        exact ih _ c (by rw [counters_applyOp_update]; exact hc)
    | qRepository o n => exact ih s c hc
    | qNode id => exact ih s c hc
    | qPullRequest r n => exact ih s c hc
    | qPullRequests r => exact ih s c hc

/-! ### Concrete inputs used in the spec's scenarios -/

def input₁ : CreatePullRequestInput :=
  { baseRefName := "main", headRefName := "feature", title := "T", body := "B",
    clientMutationId := none, ownerId := "1000" }

/-! ### Claim C2 -/

/-- C2: along every operation sequence, the numbers returned by the
successful `createPullRequest` calls targeting one repository are exactly
the consecutive run starting at that repository's seeded counter value
(strictly increasing by exactly 1); concretely, from the seeded state the
first create on pytorch/pytorch returns number 500 with url
"https://github.com/pytorch/pytorch/pull/500" and the second returns
number 501. -/
theorem created_numbers_consecutive_from_seed :
    (∀ (ops : List Op) (R : GraphQLId) (c : Nat),
        dictGet R GitHubState.init._next_pull_request_number = some c →
        ∃ k, createdNumbers R GitHubState.init ops = List.range' c k) ∧
    (∃ p1, (Root.createPullRequest input₁ GitHubState.init).1 = .ok p1 ∧
      p1.pullRequest.number = 500 ∧
      p1.pullRequest.url = "https://github.com/pytorch/pytorch/pull/500") ∧
    (∃ p2, (Root.createPullRequest input₁
        (Root.createPullRequest input₁ GitHubState.init).2).1 = .ok p2 ∧
      p2.pullRequest.number = 501) := by
  refine ⟨fun ops R c hc => createdNumbers_eq_range R ops _ c hc,
    ⟨_, rfl, rfl, rfl⟩, ⟨_, rfl, rfl⟩⟩

theorem created_numbers_consecutive_from_seed_witness :
    ∃ k, createdNumbers "1000" GitHubState.init
      [Op.create input₁, Op.create input₁] = List.range' 500 k :=
  created_numbers_consecutive_from_seed.1
    [Op.create input₁, Op.create input₁] "1000" 500 rfl

/-! ### Claim C3 -/

/-- C3: along every operation sequence from the seeded state, the
allocated identifiers (the seeded repository's "1000" plus every id handed
out by `next_id`) are pairwise distinct, and so are the identifiers of the
live entities (the seeded repository and all stored pull requests). -/
theorem allocated_identifiers_pairwise_distinct (ops : List Op) :
    ("1000" :: allocatedIds GitHubState.init ops).Nodup ∧
    ("1000" ::
      ((runOps GitHubState.init ops).pull_requests.map fun p => p.2.id)).Nodup := by
  constructor
  · rw [allocatedIds_eq, List.nodup_cons]
    constructor
    · intro hmem
      simp only [List.mem_map] at hmem
      obtain ⟨n, hn, hpy⟩ := hmem
      rw [List.mem_range'_1] at hn
      exact pyStr_ne_1000 hn.1 hpy
    · exact List.Nodup.map pyStr_injective (List.nodup_range' _ _ 1 Nat.one_pos)
  · have hinv := inv_reachable ops
    have hmapeq : ((runOps GitHubState.init ops).pull_requests.map fun p => p.2.id) =
        (runOps GitHubState.init ops).pull_requests.map Prod.fst :=
      List.map_congr_left fun p hp => hinv.pr_key_id p hp
    rw [hmapeq, List.nodup_cons]
    constructor
    · intro hmem
      simp only [List.mem_map] at hmem
      obtain ⟨p, hp, hpk⟩ := hmem
      obtain ⟨n, h5, _, hkey⟩ := hinv.pr_keys p hp
      exact pyStr_ne_1000 h5 (by rw [← hkey, hpk])
    · exact hinv.keys_nodup

/-! ### Claim C1 -/

theorem applyOpt_eq_join_getD (cur : String) (f : Option (Option String)) :
    applyOpt cur f = f.join.getD cur := by
  cases f with
  | none => rfl
  | some g => cases g <;> rfl

/-- C1: `updatePullRequest` on a stored pull request overwrites exactly
the attributes among title, baseRefName, body whose input field is present
and non-null, leaves id, number, url, headRefName and the owning-repository
reference unchanged, and with no optional field set leaves the entity
unchanged; the store is changed only at the updated entry. -/
theorem update_changes_exactly_present_nonnull_fields
    (s : GitHubState) (i : UpdatePullRequestInput) (pr : PullRequest)
    (h : dictGet i.pullRequestId s.pull_requests = some pr) :
    ∃ pr',
      Root.updatePullRequest i s =
        (.ok { clientMutationId := i.clientMutationId.join, pullRequest := pr' },
         { s with pull_requests := dictSet i.pullRequestId pr' s.pull_requests }) ∧
      pr'.title = i.title.join.getD pr.title ∧
      pr'.baseRefName = i.baseRefName.join.getD pr.baseRefName ∧
      pr'.body = i.body.join.getD pr.body ∧
      pr'.id = pr.id ∧ pr'.number = pr.number ∧ pr'.url = pr.url ∧
      pr'.headRefName = pr.headRefName ∧ pr'._repository = pr._repository ∧
      (i.title.join = none → i.baseRefName.join = none → i.body.join = none →
        pr' = pr) := by
  refine ⟨updatedPullRequest pr i, update_some h, ?_, ?_, ?_,
    rfl, rfl, rfl, rfl, rfl, ?_⟩
  · show applyOpt pr.title i.title = _
    rw [applyOpt_eq_join_getD]
  · show applyOpt pr.baseRefName i.baseRefName = _
    rw [applyOpt_eq_join_getD]
  · show applyOpt pr.body i.body = _
    rw [applyOpt_eq_join_getD]
  · intro h1 h2 h3
    show updatedPullRequest pr i = pr
    unfold updatedPullRequest
    rw [applyOpt_eq_join_getD, applyOpt_eq_join_getD, applyOpt_eq_join_getD,
      h1, h2, h3]
    rfl

/-- The seeded repository entity. -/
def repo1000 : Repository :=
  { id := "1000", name := "pytorch", nameWithOwner := "pytorch/pytorch" }

/-- The pull request created by the spec's concrete first scenario. -/
def pr500 : PullRequest :=
  { id := "5000", _repository := "1000", number := 500,
    url := "https://github.com/pytorch/pytorch/pull/500",
    baseRefName := "main", headRefName := "feature",
    title := "T", body := "B" }

/-- The state after the spec's concrete first creation. -/
def state₁ : GitHubState := (Root.createPullRequest input₁ GitHubState.init).2

/-- The spec's concrete update input: only `title` set, to "T2". -/
def update₁ : UpdatePullRequestInput :=
  { baseRefName := none, title := some (some "T2"), body := none,
    clientMutationId := none, pullRequestId := "5000" }

theorem update_changes_exactly_present_nonnull_fields_witness :
    dictGet update₁.pullRequestId state₁.pull_requests = some pr500 ∧
    ∃ pr',
      Root.updatePullRequest update₁ state₁ =
        (.ok { clientMutationId := update₁.clientMutationId.join,
               pullRequest := pr' },
         { state₁ with
             pull_requests :=
               dictSet update₁.pullRequestId pr' state₁.pull_requests }) ∧
      pr'.title = update₁.title.join.getD pr500.title ∧
      pr'.baseRefName = update₁.baseRefName.join.getD pr500.baseRefName ∧
      pr'.body = update₁.body.join.getD pr500.body ∧
      pr'.id = pr500.id ∧ pr'.number = pr500.number ∧ pr'.url = pr500.url ∧
      pr'.headRefName = pr500.headRefName ∧
      pr'._repository = pr500._repository ∧
      (update₁.title.join = none → update₁.baseRefName.join = none →
        update₁.body.join = none → pr' = pr500) :=
  ⟨rfl, update_changes_exactly_present_nonnull_fields state₁ update₁ pr500 rfl⟩

/-! ### Claim C6 -/

/-- C6: in every state reachable from the seeded initial state, every
stored pull request's owning-repository reference resolves to a live
repository, so `PullRequest.repository` never fails there. -/
theorem owning_reference_always_resolves (ops : List Op) (k : GraphQLId)
    (pr : PullRequest)
    (h : dictGet k (runOps GitHubState.init ops).pull_requests = some pr) :
    ∃ r, pr.repository (runOps GitHubState.init ops) = .ok r := by
  have hinv := inv_reachable ops
  have hmem := mem_of_dictGet_eq_some h
  have hsome := hinv.no_dangle _ hmem
  rcases hx : dictGet pr._repository (runOps GitHubState.init ops).repositories
    with _ | r
  · rw [hx] at hsome; simp at hsome
  · exact ⟨r, by simp [PullRequest.repository, hx]⟩

theorem owning_reference_always_resolves_witness :
    dictGet "5000" (runOps GitHubState.init [Op.create input₁]).pull_requests =
      some pr500 ∧
    ∃ r, pr500.repository (runOps GitHubState.init [Op.create input₁]) = .ok r :=
  ⟨rfl, owning_reference_always_resolves [Op.create input₁] "5000" pr500 rfl⟩

/-! ### Claim C7 -/

/-- C7: `node(id)` returns the repository with that identifier if one
exists, otherwise the pull request with that identifier if one exists, and
otherwise fails with "unknown id" naming the missing identifier; in
particular `node("9999")` on the seeded store fails naming "9999". -/
theorem node_lookup_trichotomy :
    (∀ (s : GitHubState) (id : GraphQLId) (r : Repository),
        dictGet id s.repositories = some r → Root.node id s = .ok (.repo r)) ∧
    (∀ (s : GitHubState) (id : GraphQLId) (p : PullRequest),
        dictGet id s.repositories = none → dictGet id s.pull_requests = some p →
        Root.node id s = .ok (.pr p)) ∧
    (∀ (s : GitHubState) (id : GraphQLId),
        dictGet id s.repositories = none → dictGet id s.pull_requests = none →
        Root.node id s = .error ("unknown id " ++ id)) ∧
    Root.node "9999" GitHubState.init = .error "unknown id 9999" := by
  refine ⟨?_, ?_, ?_, rfl⟩
  · intro s id r h; simp [Root.node, h]
  · intro s id p h1 h2; simp [Root.node, h1, h2]
  · intro s id h1 h2; simp [Root.node, h1, h2]

theorem node_lookup_trichotomy_witness :
    (dictGet "1000" GitHubState.init.repositories = some repo1000 ∧
     Root.node "1000" GitHubState.init = .ok (.repo repo1000)) ∧
    (dictGet "9999" GitHubState.init.repositories = none ∧
     dictGet "9999" GitHubState.init.pull_requests = none ∧
     Root.node "9999" GitHubState.init = .error "unknown id 9999") :=
  ⟨⟨rfl, node_lookup_trichotomy.1 GitHubState.init "1000" repo1000 rfl⟩,
   ⟨rfl, rfl, node_lookup_trichotomy.2.2.1 GitHubState.init "9999" rfl rfl⟩⟩

/-! ### Claim C8 -/

/-- C8: the execute facade returns `{ data := ... }` exactly when the
engine result carries no error, and otherwise raises a single aggregated
failure whose message joins every individual error message with a newline;
it never returns a result alongside errors and never swallows one. -/
theorem graphql_facade_all_or_nothing {α : Type} (r : GraphQLSyncResult α) :
    (errorsTruthy r.errors = false →
      FakeGitHubGraphQLEndpoint.graphql r = .ok { data := r.data }) ∧
    (∀ es, r.errors = some es → es ≠ [] →
      FakeGitHubGraphQLEndpoint.graphql r =
        .error ("GraphQL query failed with errors:\n\n" ++
          String.intercalate "\n" es)) ∧
    (∀ resp, FakeGitHubGraphQLEndpoint.graphql r = .ok resp →
      errorsTruthy r.errors = false ∧ resp.data = r.data) := by
  refine ⟨?_, ?_, ?_⟩
  · intro h
    simp [FakeGitHubGraphQLEndpoint.graphql, h]
  · intro es hes hne
    have ht : errorsTruthy (some es) = true := by
      show (!es.isEmpty) = true
      cases es with
      | nil => exact absurd rfl hne
      | cons a l => rfl
    simp [FakeGitHubGraphQLEndpoint.graphql, hes, ht]
  · intro resp h
    by_cases ht : errorsTruthy r.errors = true
    · simp [FakeGitHubGraphQLEndpoint.graphql, ht] at h
    · have htf : errorsTruthy r.errors = false := by
        simpa using ht
      refine ⟨htf, ?_⟩
      simp only [FakeGitHubGraphQLEndpoint.graphql, htf, Bool.false_eq_true,
        if_false] at h
      have h2 := Except.ok.inj h
      rw [← h2]

theorem graphql_facade_all_or_nothing_witness :
    (errorsTruthy (GraphQLSyncResult.mk (0 : Nat) none).errors = false ∧
     FakeGitHubGraphQLEndpoint.graphql (GraphQLSyncResult.mk (0 : Nat) none) =
       .ok { data := 0 }) ∧
    ((GraphQLSyncResult.mk (0 : Nat) (some ["boom"])).errors = some ["boom"] ∧
     FakeGitHubGraphQLEndpoint.graphql (GraphQLSyncResult.mk (0 : Nat)
        (some ["boom"])) =
       .error ("GraphQL query failed with errors:\n\n" ++
         String.intercalate "\n" ["boom"])) :=
  ⟨⟨rfl, (graphql_facade_all_or_nothing ⟨0, none⟩).1 rfl⟩,
   ⟨rfl, (graphql_facade_all_or_nothing ⟨0, some ["boom"]⟩).2.1 ["boom"] rfl
     (by decide)⟩⟩

/-! ### Claim C9 -/

/-- C9: `next_pull_request_number` on an unseeded repository id raises and
leaves the store exactly as it was; on a seeded id it returns the current
counter value and advances only that counter, touching nothing else. -/
theorem allocateNumber_fails_loudly_unseeded :
    (∀ (s : GitHubState) (rid : GraphQLId),
        dictGet rid s._next_pull_request_number = none →
        GitHubState.next_pull_request_number rid s =
          (.error ("KeyError: " ++ rid), s)) ∧
    (∀ (s : GitHubState) (rid : GraphQLId) (c : Nat),
        dictGet rid s._next_pull_request_number = some c →
        (GitHubState.next_pull_request_number rid s).1 = .ok c ∧
        dictGet rid
          (GitHubState.next_pull_request_number rid s).2._next_pull_request_number =
          some (c + 1) ∧
        (∀ k, k ≠ rid →
          dictGet k
            (GitHubState.next_pull_request_number rid s).2._next_pull_request_number =
            dictGet k s._next_pull_request_number) ∧
        (GitHubState.next_pull_request_number rid s).2.repositories =
          s.repositories ∧
        (GitHubState.next_pull_request_number rid s).2.pull_requests =
          s.pull_requests ∧
        (GitHubState.next_pull_request_number rid s).2._next_id = s._next_id) := by
  constructor
  · intro s rid h
    simp [GitHubState.next_pull_request_number, h]
  · intro s rid c h
    have hstep : GitHubState.next_pull_request_number rid s =
        (.ok c,
         { s with
             _next_pull_request_number :=
               dictSet rid (c + 1) s._next_pull_request_number }) := by
      simp [GitHubState.next_pull_request_number, h]
    rw [hstep]
    exact ⟨rfl, dictGet_dictSet_self _ _ _,
      fun k hk => dictGet_dictSet_ne _ _ hk, rfl, rfl, rfl⟩

theorem allocateNumber_fails_loudly_unseeded_witness :
    (dictGet "4242" GitHubState.init._next_pull_request_number = none ∧
     GitHubState.next_pull_request_number "4242" GitHubState.init =
       (.error ("KeyError: " ++ "4242"), GitHubState.init)) ∧
    (dictGet "1000" GitHubState.init._next_pull_request_number = some 500 ∧
     (GitHubState.next_pull_request_number "1000" GitHubState.init).1 = .ok 500) :=
  ⟨⟨rfl, allocateNumber_fails_loudly_unseeded.1 GitHubState.init "4242" rfl⟩,
   ⟨rfl, (allocateNumber_fails_loudly_unseeded.2 GitHubState.init "1000" 500
     rfl).1⟩⟩

/-! ### Claim C10 -/

/-- C10: `createPullRequest` with an unresolvable `ownerId` raises before
inserting anything — the pull-request dict and every counter are untouched
— yet the global id counter has already been advanced by one: a failed
creation still consumes a fresh identifier. -/
theorem failed_create_consumes_id (s : GitHubState) (i : CreatePullRequestInput)
    (h : dictGet i.ownerId s.repositories = none) :
    (Root.createPullRequest i s).1 = .error ("KeyError: " ++ i.ownerId) ∧
    (Root.createPullRequest i s).2.pull_requests = s.pull_requests ∧
    (Root.createPullRequest i s).2._next_pull_request_number =
      s._next_pull_request_number ∧
    (Root.createPullRequest i s).2.repositories = s.repositories ∧
    (Root.createPullRequest i s).2._next_id = s._next_id + 1 := by
  rw [create_none h]
  exact ⟨rfl, rfl, rfl, rfl, rfl⟩

/-- An input whose `ownerId` resolves to nothing in the seeded store. -/
def inputBadOwner : CreatePullRequestInput :=
  { baseRefName := "main", headRefName := "feature", title := "T", body := "B",
    clientMutationId := none, ownerId := "42" }

theorem failed_create_consumes_id_witness :
    dictGet inputBadOwner.ownerId GitHubState.init.repositories = none ∧
    ((Root.createPullRequest inputBadOwner GitHubState.init).1 =
      .error ("KeyError: " ++ inputBadOwner.ownerId) ∧
     (Root.createPullRequest inputBadOwner GitHubState.init).2.pull_requests =
       GitHubState.init.pull_requests ∧
     (Root.createPullRequest inputBadOwner
        GitHubState.init).2._next_pull_request_number =
       GitHubState.init._next_pull_request_number ∧
     (Root.createPullRequest inputBadOwner GitHubState.init).2.repositories =
       GitHubState.init.repositories ∧
     (Root.createPullRequest inputBadOwner GitHubState.init).2._next_id =
       GitHubState.init._next_id + 1) :=
  ⟨rfl, failed_create_consumes_id GitHubState.init inputBadOwner rfl⟩

/-! ### Claims C4 and C5

The code decides membership with `self == pr.repository(info)` — dataclass
(structural) equality of the resolved repository with the receiver — while
the spec words the criterion as equality of identifiers alone.  On
arbitrary store states the two disagree; on states whose repository dict
keys each repository by its own identifier (true in every reachable
state) they coincide. -/

/-- The selection criterion exactly as the spec words it: keep a pull
request when its owning-repository reference equals the receiving
repository's identifier. -/
def selectedByIdOnly (self : Repository) (s : GitHubState) : List PullRequest :=
  (s.pull_requests.map Prod.snd).filter fun pr => pr._repository == self.id

/-- Lookup by number as the spec words it: the first pull request, in
store order, whose owning reference equals the receiver's identifier and
whose number matches. -/
def foundByIdOnly (self : Repository) (number : GitHubNumber)
    (s : GitHubState) : Option PullRequest :=
  (s.pull_requests.map Prod.snd).find? fun pr =>
    pr._repository == self.id && pr.number == number

def repoX : Repository := { id := "X", name := "alpha", nameWithOwner := "o/alpha" }

def prMismatch : PullRequest :=
  { id := "5000", baseRefName := "b", body := "bd", headRefName := "h",
    number := 1, _repository := "A", title := "t", url := "u" }

/-- A store state (not reachable from the seed) where the repository under
key "A" carries identifier "X": key and identifier disagree. -/
def stateMismatch : GitHubState :=
  { repositories := [("A", repoX)], pull_requests := [("5000", prMismatch)],
    _next_id := 5001, _next_pull_request_number := [] }

/-- C4 counterexample: on `stateMismatch`, `Repository.pullRequest`
selects a pull request whose owning-repository reference ("A") differs
from the receiving repository's identifier ("X") — so over all store
states the decision is not made by comparing identifiers only. -/
theorem pull_request_selected_despite_id_mismatch :
    Repository.pullRequest repoX 1 stateMismatch = .ok prMismatch ∧
    prMismatch._repository ≠ repoX.id := by
  exact ⟨rfl, by decide⟩

def repoY : Repository := { id := "Y", name := "beta", nameWithOwner := "o/beta" }

def prMismatch2 : PullRequest :=
  { id := "6000", baseRefName := "b2", body := "bd2", headRefName := "h2",
    number := 2, _repository := "B", title := "t2", url := "u2" }

/-- A second unreachable store state with key/identifier disagreement. -/
def stateMismatch2 : GitHubState :=
  { repositories := [("B", repoY)], pull_requests := [("6000", prMismatch2)],
    _next_id := 6001, _next_pull_request_number := [] }

/-- C5 counterexample: on `stateMismatch2`, `Repository.pullRequests`
returns a pull request whose owning-repository reference ("B") differs
from the receiver's identifier ("Y"), while the spec's identifier-only
criterion selects nothing — so over all store states the returned list is
not "exactly the pull requests whose owning reference equals the
receiver's identifier". -/
theorem pullRequests_includes_id_mismatch :
    Repository.pullRequests repoY stateMismatch2 = .ok [prMismatch2] ∧
    selectedByIdOnly repoY stateMismatch2 = [] ∧
    prMismatch2._repository ≠ repoY.id := by
  exact ⟨rfl, rfl, by decide⟩

/-- On key-coherent states, structural equality with the receiver is
equivalent to reference/identifier equality. -/
theorem self_eq_iff_ref_eq {s : GitHubState} {self r : Repository}
    {pr : PullRequest}
    (hwf : ∀ k r₀, dictGet k s.repositories = some r₀ → r₀.id = k)
    (hself : dictGet self.id s.repositories = some self)
    (hres : dictGet pr._repository s.repositories = some r) :
    self = r ↔ pr._repository = self.id := by
  constructor
  · intro he
    subst he
    exact (hwf _ _ hres).symm
  · intro he
    rw [he, hself] at hres
    exact Option.some.inj hres

theorem pullRequestsAux_eq_filter {s : GitHubState} {self : Repository}
    (hwf : ∀ k r₀, dictGet k s.repositories = some r₀ → r₀.id = k)
    (hself : dictGet self.id s.repositories = some self) :
    ∀ l : List (GraphQLId × PullRequest),
      (∀ p ∈ l, (dictGet p.2._repository s.repositories).isSome) →
      Repository.pullRequestsAux self s l =
        .ok ((l.map Prod.snd).filter fun pr => pr._repository == self.id) := by
  intro l
  induction l with
  | nil => intro _; rfl
  | cons q rest ih =>
    intro hall
    obtain ⟨k, pr⟩ := q
    have hs := hall (k, pr) (List.mem_cons_self _ _)
    rcases hx : dictGet pr._repository s.repositories with _ | r
    · rw [hx] at hs; simp at hs
    · have hrep : pr.repository s = .ok r := by
        simp [PullRequest.repository, hx]
      have hrest := ih fun p hp => hall p (List.mem_cons_of_mem _ hp)
      simp only [Repository.pullRequestsAux, hrep, hrest, List.map_cons,
        List.filter_cons]
      by_cases hid : pr._repository = self.id
      · have hsel : self = r := (self_eq_iff_ref_eq hwf hself hx).mpr hid
        simp [hsel, hid]
      · have hsel : self ≠ r := fun he =>
          hid ((self_eq_iff_ref_eq hwf hself hx).mp he)
        simp [hsel, hid]

theorem pullRequestAux_eq_find {s : GitHubState} {self : Repository}
    (hwf : ∀ k r₀, dictGet k s.repositories = some r₀ → r₀.id = k)
    (hself : dictGet self.id s.repositories = some self)
    (number : GitHubNumber) :
    ∀ l : List (GraphQLId × PullRequest),
      (∀ p ∈ l, (dictGet p.2._repository s.repositories).isSome) →
      Repository.pullRequestAux self number s l =
        (match (l.map Prod.snd).find? (fun pr =>
            pr._repository == self.id && pr.number == number) with
         | some pr => .ok pr
         | none => .error ("unrecognized pull request #" ++ pyStr number ++
             " in repository " ++ self.nameWithOwner)) := by
  intro l
  induction l with
  | nil => intro _; rfl
  | cons q rest ih =>
    intro hall
    obtain ⟨k, pr⟩ := q
    have hs := hall (k, pr) (List.mem_cons_self _ _)
    rcases hx : dictGet pr._repository s.repositories with _ | r
    · rw [hx] at hs; simp at hs
    · have hrep : pr.repository s = .ok r := by
        simp [PullRequest.repository, hx]
      have hrest := ih fun p hp => hall p (List.mem_cons_of_mem _ hp)
      simp only [Repository.pullRequestAux, hrep, List.map_cons]
      by_cases hcond : self = r ∧ pr.number = number
      · have hid : pr._repository = self.id :=
          (self_eq_iff_ref_eq hwf hself hx).mp hcond.1
        have hb : (pr._repository == self.id && pr.number == number) = true := by
          simp [hid, hcond.2]
        have hfind : List.find? (fun q =>
            q._repository == self.id && q.number == number)
              (pr :: rest.map Prod.snd) = some pr := by
          simp [List.find?, hb]
        rw [if_pos hcond, hfind]
      · have hb : (pr._repository == self.id && pr.number == number) = false := by
          by_cases h1 : pr._repository = self.id
          · have h2 : pr.number ≠ number := fun hn =>
              hcond ⟨(self_eq_iff_ref_eq hwf hself hx).mpr h1, hn⟩
            simp [h1, h2]
          · simp [h1]
        have hfind : List.find? (fun q =>
            q._repository == self.id && q.number == number)
              (pr :: rest.map Prod.snd) =
            List.find? (fun q =>
              q._repository == self.id && q.number == number)
                (rest.map Prod.snd) := by
          simp [List.find?, hb]
        rw [if_neg hcond, hfind, hrest]

/-- Every reachable state keys each repository by its own identifier. -/
theorem wf_of_inv {s : GitHubState} (h : Inv s) :
    ∀ k r, dictGet k s.repositories = some r → r.id = k := by
  intro k r hkr
  rw [h.repos_eq] at hkr
  by_cases hk : k = "1000"
  · subst hk
    have he : repo1000 = r := by
      simpa [GitHubState.init, dictGet, repo1000] using hkr
    rw [← he]
    rfl
  · simp [GitHubState.init, dictGet, hk] at hkr

/-- C4 (amended): in every state reachable from the seed, and for a
receiving repository live in the store, `pullRequest` and `pullRequests`
select a pull request exactly when its owning-repository reference equals
the receiving repository's identifier (the code's structural comparison
coincides with identifier comparison there, because every repository is
keyed by its own identifier and no reference dangles). -/
theorem selection_by_identifier_on_reachable_states (ops : List Op)
    (self : Repository)
    (hself : dictGet self.id (runOps GitHubState.init ops).repositories =
      some self) :
    Repository.pullRequests self (runOps GitHubState.init ops) =
      .ok (selectedByIdOnly self (runOps GitHubState.init ops)) ∧
    ∀ number, Repository.pullRequest self number (runOps GitHubState.init ops) =
      (match foundByIdOnly self number (runOps GitHubState.init ops) with
       | some pr => .ok pr
       | none => .error ("unrecognized pull request #" ++ pyStr number ++
           " in repository " ++ self.nameWithOwner)) := by
  have hinv := inv_reachable ops
  have hwf := wf_of_inv hinv
  constructor
  · exact pullRequestsAux_eq_filter hwf hself _ hinv.no_dangle
  · intro number
    exact pullRequestAux_eq_find hwf hself number _ hinv.no_dangle

theorem selection_by_identifier_on_reachable_states_witness :
    dictGet repo1000.id
      (runOps GitHubState.init [Op.create input₁]).repositories = some repo1000 ∧
    Repository.pullRequests repo1000 (runOps GitHubState.init [Op.create input₁]) =
      .ok (selectedByIdOnly repo1000 (runOps GitHubState.init [Op.create input₁])) :=
  ⟨rfl,
   (selection_by_identifier_on_reachable_states [Op.create input₁] repo1000 rfl).1⟩

theorem runOps_append (l₁ l₂ : List Op) :
    ∀ s, runOps s (l₁ ++ l₂) = runOps (runOps s l₁) l₂ := by
  induction l₁ with
  | nil => intro s; rfl
  | cons op l ih => intro s; exact ih (applyOp s op)

/-- C5 (amended): in every reachable state with the receiver live in the
store, `pullRequests` returns exactly the pull requests whose
owning-repository reference equals the receiver's identifier, in the
store's insertion (= creation) order with no sort; the seeded repository's
list starts empty, and each successful create targeting the receiver
appends exactly its new pull request at the end. -/
theorem pullRequests_insertion_order_and_growth :
    (∀ (ops : List Op) (self : Repository),
        dictGet self.id (runOps GitHubState.init ops).repositories = some self →
        Repository.pullRequests self (runOps GitHubState.init ops) =
          .ok (selectedByIdOnly self (runOps GitHubState.init ops))) ∧
    Repository.pullRequests repo1000 GitHubState.init = .ok [] ∧
    (∀ (ops : List Op) (self : Repository) (i : CreatePullRequestInput)
        (payload : CreatePullRequestPayload) (s₂ : GitHubState),
        dictGet self.id (runOps GitHubState.init ops).repositories = some self →
        i.ownerId = self.id →
        Root.createPullRequest i (runOps GitHubState.init ops) = (.ok payload, s₂) →
        Repository.pullRequests self s₂ =
          .ok (selectedByIdOnly self (runOps GitHubState.init ops) ++
            [payload.pullRequest])) := by
  refine ⟨?_, rfl, ?_⟩
  · intro ops self hself
    have hinv := inv_reachable ops
    exact pullRequestsAux_eq_filter (wf_of_inv hinv) hself _ hinv.no_dangle
  · intro ops self i payload s₂ hself hown hcr
    have hinv := inv_reachable ops
    obtain ⟨repo, c, hr, hc, hpay, hs₂⟩ := create_ok_inv hcr
    have hreach : s₂ = runOps GitHubState.init (ops ++ [Op.create i]) := by
      rw [runOps_append]
      show s₂ = (Root.createPullRequest i (runOps GitHubState.init ops)).2
      rw [hcr]
    have hinv₂ : Inv s₂ := by
      rw [hreach]; exact inv_reachable (ops ++ [Op.create i])
    have hself₂ : dictGet self.id s₂.repositories = some self := by
      rw [hs₂]; exact hself
    have hmain :=
      pullRequestsAux_eq_filter (wf_of_inv hinv₂) hself₂
        s₂.pull_requests hinv₂.no_dangle
    have hlist : s₂.pull_requests =
        (runOps GitHubState.init ops).pull_requests ++
          [(pyStr (runOps GitHubState.init ops)._next_id,
            newPullRequest i (pyStr (runOps GitHubState.init ops)._next_id)
              repo c)] := by
      rw [hs₂]
      exact dictSet_of_not_mem _ _ _ (fresh_key hinv)
    show Repository.pullRequestsAux self s₂ s₂.pull_requests = _
    rw [hmain]
    have hb : ((newPullRequest i
        (pyStr (runOps GitHubState.init ops)._next_id) repo c)._repository ==
          self.id) = true := by
      simp [newPullRequest, hown]
    rw [hlist, hpay]
    simp only [List.map_append, List.filter_append, List.map_cons,
      List.map_nil, List.filter_cons, List.filter_nil, hb, if_true]
    rfl

theorem pullRequests_insertion_order_and_growth_witness :
    dictGet repo1000.id (runOps GitHubState.init []).repositories =
      some repo1000 ∧
    input₁.ownerId = repo1000.id ∧
    Root.createPullRequest input₁ (runOps GitHubState.init []) =
      (.ok { clientMutationId := none, pullRequest := pr500 }, state₁) ∧
    Repository.pullRequests repo1000 state₁ =
      .ok (selectedByIdOnly repo1000 (runOps GitHubState.init []) ++ [pr500]) :=
  ⟨rfl, rfl, rfl,
   pullRequests_insertion_order_and_growth.2.2 [] repo1000 input₁
     { clientMutationId := none, pullRequest := pr500 } state₁ rfl rfl rfl⟩

end GithubFake
